import Mathlib

/-!
Verification of the genesis state-import subsystem
(`crates/fuel-core/src/service/genesis/on_chain.rs`).

Shallow embedding: the per-table handler functions (`init_coin`,
`init_contract_latest_utxo`, `init_contract_raw_code`, `init_da_message`)
and the `ProcessState::process` loops are translated directly from the
source.  The storage transaction is modelled as an association list per
table; `insert` writes the value and returns the previous one, exactly as
the `StorageMutate::insert` used via `.insert(..)?.is_some()` in the
source.  Because handlers mutate the transaction through `&mut` and may
error afterwards, every operation returns the (possibly mutated) state
together with an optional error: `σ × Option ImportError`.

Identifiers (utxo id, nonce, contract id, tx id, owner, asset id, byte
blobs) are modelled as `Nat`; only heights are compared arithmetically
and no machine-width overflow is involved (heights are compared, never
added).
-/

/-- A transaction pointer: block height plus index within the block. -/
structure TxPointer where
  block_height : Nat
  tx_index : Nat
deriving DecidableEq

/-- The value stored in the `Coins` table (owner, amount, asset id,
tx pointer); also the value shape carried by a snapshot `Coins` entry. -/
structure CompressedCoin where
  owner : Nat
  amount : Nat
  asset_id : Nat
  tx_pointer : TxPointer
deriving DecidableEq

/-- A full coin: a `CompressedCoin` together with its utxo id, as built by
`init_coin` before compression. -/
structure Coin where
  utxo_id : Nat
  owner : Nat
  amount : Nat
  asset_id : Nat
  tx_pointer : TxPointer
deriving DecidableEq

/-- Modelled from the spec: `Coin::compress` (fuel_core_types, not under
`src/`) produces the "derived, compacted coin record" — it drops the utxo
identifier and keeps owner, amount, asset id and tx pointer. -/
def Coin.compress (c : Coin) : CompressedCoin :=
  ⟨c.owner, c.amount, c.asset_id, c.tx_pointer⟩

/-- A bridge message; `da_height` is the deposit (external-chain) height. -/
structure Message where
  sender : Nat
  recipient : Nat
  nonce : Nat
  amount : Nat
  da_height : Nat
deriving DecidableEq

/-- Modelled from the spec: `Message::id` (fuel_core_types, not under
`src/`) — the "message identifier" is derived from the message record
itself (its nonce field), not from any snapshot metadata. -/
def Message.id (m : Message) : Nat := m.nonce

/-- The value stored in the `ContractsLatestUtxo` table. -/
structure ContractUtxoInfo where
  utxo_id : Nat
  tx_pointer : TxPointer
deriving DecidableEq

/-- A snapshot entry: a key/value pair (`TableEntry` of
fuel_core_chain_config). -/
structure TableEntry (K V : Type) where
  key : K
  value : V
deriving DecidableEq

/-- The errors the on-chain import handlers can produce, one constructor
per `anyhow!` site in the source.  The height violations are the spec's
"Validation" errors, the "should not exist" ones its "Conflict" errors. -/
inductive ImportError where
  | coinHeightViolation (coin_height : Nat) (genesis_height : Nat)
  | coinConflict
  | contractUtxoHeightViolation
  | contractUtxoConflict
  | contractCodeConflict
  | messageDaHeightViolation
  | messageConflict
deriving DecidableEq

/-- Spec taxonomy: the "Conflict" errors (`... should not exist`). -/
def ImportError.isConflict : ImportError → Bool
  | .coinConflict => true
  | .contractUtxoConflict => true
  | .contractCodeConflict => true
  | .messageConflict => true
  | _ => false

/-- Spec taxonomy: the "Validation" errors (height-bound violations). -/
def ImportError.isValidation : ImportError → Bool
  | .coinHeightViolation _ _ => true
  | .contractUtxoHeightViolation => true
  | .messageDaHeightViolation => true
  | _ => false

/-- Lookup in a table modelled as an association list. -/
def lookupA {K V : Type} [DecidableEq K] : List (K × V) → K → Option V
  | [], _ => none
  | (k, v) :: rest, key => if k = key then some v else lookupA rest key

/-- Insert into a table: writes the value under the key, replacing any
previous binding (the previous value, when wanted, is read off with
`lookupA` first — mirroring `insert` returning `Option<V>`). -/
def insertA {K V : Type} [DecidableEq K] : List (K × V) → K → V → List (K × V)
  | [], key, val => [(key, val)]
  | (k, v) :: rest, key, val =>
    if k = key then (key, val) :: rest else (k, v) :: insertA rest key val

abbrev CoinsTable := List (Nat × CompressedCoin)
abbrev MessagesTable := List (Nat × Message)
abbrev RawCodeTable := List (Nat × Nat)
abbrev LatestUtxoTable := List (Nat × ContractUtxoInfo)
abbrev ContractsStateTable := List ((Nat × Nat) × Nat)
abbrev ContractsAssetsTable := List ((Nat × Nat) × Nat)
abbrev TransactionsTable := List (Nat × Nat)

/-- `init_coin` from the source: build the compressed coin from the entry
key and value fields, reject a tx-pointer height above the genesis block
height, then insert and reject if a previous value existed ("Coin should
not exist").  The insert happens before the previous-value check, so on a
conflict the staged value has already been replaced. -/
def init_coin (height : Nat) (coin : TableEntry Nat CompressedCoin)
    (st : CoinsTable) : CoinsTable × Option ImportError :=
  let utxo_id := coin.key
  let compressed_coin :=
    (Coin.mk utxo_id coin.value.owner coin.value.amount coin.value.asset_id
      coin.value.tx_pointer).compress
  let coin_height := coin.value.tx_pointer.block_height
  if coin_height > height then
    (st, some (.coinHeightViolation coin_height height))
  else
    let prev := lookupA st utxo_id
    let st' := insertA st utxo_id compressed_coin
    if prev.isSome then (st', some .coinConflict) else (st', none)

/-- `init_contract_latest_utxo` from the source: reject a tx-pointer
height above the genesis block height, then insert and reject if a
previous value existed ("Contract utxo should not exist"). -/
def init_contract_latest_utxo (height : Nat)
    (entry : TableEntry Nat ContractUtxoInfo)
    (st : LatestUtxoTable) : LatestUtxoTable × Option ImportError :=
  let contract_id := entry.key
  if entry.value.tx_pointer.block_height > height then
    (st, some .contractUtxoHeightViolation)
  else
    let prev := lookupA st contract_id
    let st' := insertA st contract_id entry.value
    if prev.isSome then (st', some .contractUtxoConflict) else (st', none)

/-- `init_contract_raw_code` from the source: insert the code under the
contract id and reject if a previous value existed ("Contract code should
not exist"). -/
def init_contract_raw_code (entry : TableEntry Nat Nat)
    (st : RawCodeTable) : RawCodeTable × Option ImportError :=
  let contract_id := entry.key
  let prev := lookupA st contract_id
  let st' := insertA st contract_id entry.value
  if prev.isSome then (st', some .contractCodeConflict) else (st', none)

/-- `init_da_message` from the source: reject a message whose `da_height`
exceeds the genesis da block height, then insert the message under
`message.id()` — the entry's `key` field is never read — and reject if a
previous value existed ("Message should not exist"). -/
def init_da_message (da_height : Nat) (msg : TableEntry Nat Message)
    (st : MessagesTable) : MessagesTable × Option ImportError :=
  let message := msg.value
  if message.da_height > da_height then
    (st, some .messageDaHeightViolation)
  else
    let prev := lookupA st message.id
    let st' := insertA st message.id message
    if prev.isSome then (st', some .messageConflict) else (st', none)

/-- The `try_for_each` shape shared by the `process` implementations: run
`step` on each element in order, threading the mutated state, and stop at
the first error, returning it together with the state as mutated so far
(staged writes are never rolled back individually). -/
def runGroup {α σ : Type} (step : α → σ → σ × Option ImportError) :
    List α → σ → σ × Option ImportError
  | [], st => (st, none)
  | e :: rest, st =>
    match step e st with
    | (st', none) => runGroup step rest st'
    | (st', some err) => (st', some err)

/-- `process` of `Handler<Coins>`: `init_coin` on each entry, fail-fast. -/
def processCoins (block_height : Nat)
    (group : List (TableEntry Nat CompressedCoin)) (st : CoinsTable) :
    CoinsTable × Option ImportError :=
  runGroup (init_coin block_height) group st

/-- `process` of `Handler<Messages>`: `init_da_message` on each entry,
fail-fast. -/
def processMessages (da_block_height : Nat)
    (group : List (TableEntry Nat Message)) (st : MessagesTable) :
    MessagesTable × Option ImportError :=
  runGroup (init_da_message da_block_height) group st

/-- `process` of `Handler<ContractsRawCode>`: `init_contract_raw_code` on
each entry, fail-fast. -/
def processContractsRawCode (group : List (TableEntry Nat Nat))
    (st : RawCodeTable) : RawCodeTable × Option ImportError :=
  runGroup init_contract_raw_code group st

/-- `process` of `Handler<ContractsLatestUtxo>`:
`init_contract_latest_utxo` on each entry, fail-fast. -/
def processContractsLatestUtxo (block_height : Nat)
    (group : List (TableEntry Nat ContractUtxoInfo)) (st : LatestUtxoTable) :
    LatestUtxoTable × Option ImportError :=
  runGroup (init_contract_latest_utxo block_height) group st

/-- `process` of `Handler<Transactions>`: plain `insert` of each entry
under its key; the previous value returned by `insert` is discarded, so a
duplicate key overwrites silently and no error is produced. -/
def processTransactions (group : List (TableEntry Nat Nat))
    (st : TransactionsTable) : TransactionsTable × Option ImportError :=
  runGroup (fun e st => (insertA st e.key e.value, none)) group st

/-- Modelled from the spec: `update_contract_states`
(`StateInitializer`, not under `src/`) — a bulk "merge/overwrite" of the
whole group, no per-key existence check. -/
def update_contract_states (group : List (TableEntry (Nat × Nat) Nat))
    (st : ContractsStateTable) : ContractsStateTable :=
  group.foldl (fun acc e => insertA acc e.key e.value) st

/-- Modelled from the spec: `update_contract_balances`
(`BalancesInitializer`, not under `src/`) — a bulk "merge/overwrite" of
the whole group, no per-key existence check. -/
def update_contract_balances (group : List (TableEntry (Nat × Nat) Nat))
    (st : ContractsAssetsTable) : ContractsAssetsTable :=
  group.foldl (fun acc e => insertA acc e.key e.value) st

/-- `process` of `Handler<ContractsState>`: one bulk update of the whole
group. -/
def processContractsState (group : List (TableEntry (Nat × Nat) Nat))
    (st : ContractsStateTable) : ContractsStateTable × Option ImportError :=
  (update_contract_states group st, none)

/-- `process` of `Handler<ContractsAssets>`: one bulk update of the whole
group. -/
def processContractsAssets (group : List (TableEntry (Nat × Nat) Nat))
    (st : ContractsAssetsTable) : ContractsAssetsTable × Option ImportError :=
  (update_contract_balances group st, none)

/-- The on-chain snapshot: per table kind, the finite ordered sequence of
groups the Snapshot Source yields. -/
structure SnapshotData where
  coins : List (List (TableEntry Nat CompressedCoin))
  messages : List (List (TableEntry Nat Message))
  contracts_raw_code : List (List (TableEntry Nat Nat))
  contracts_latest_utxo : List (List (TableEntry Nat ContractUtxoInfo))
  contracts_state : List (List (TableEntry (Nat × Nat) Nat))
  contracts_assets : List (List (TableEntry (Nat × Nat) Nat))
  transactions : List (List (TableEntry Nat Nat))
deriving DecidableEq

/-- The persistent store (equally, the transaction's view of it): one
table per kind. -/
structure StoreState where
  coins : CoinsTable
  messages : MessagesTable
  contracts_raw_code : RawCodeTable
  contracts_latest_utxo : LatestUtxoTable
  contracts_state : ContractsStateTable
  contracts_assets : ContractsAssetsTable
  transactions : TransactionsTable
deriving DecidableEq

/-- First error out of the per-table outcomes. -/
def firstError : List (Option ImportError) → Option ImportError
  | [] => none
  | some e :: _ => some e
  | none :: rest => firstError rest

/-- Modelled from the spec: the staging phase of
`GenesisWorkers::run_on_chain_imports` (not under `src/`).  Each table's
groups are staged in order through its handler against a transaction
opened on the store; the result is the fully staged transaction view
together with the first error any handler reported. -/
def stageAll (block_height da_height : Nat) (snap : SnapshotData)
    (store : StoreState) : StoreState × Option ImportError :=
  let rc := runGroup (processCoins block_height) snap.coins store.coins
  let rm := runGroup (processMessages da_height) snap.messages store.messages
  let rrc := runGroup processContractsRawCode snap.contracts_raw_code
    store.contracts_raw_code
  let rlu := runGroup (processContractsLatestUtxo block_height)
    snap.contracts_latest_utxo store.contracts_latest_utxo
  let rcs := runGroup processContractsState snap.contracts_state
    store.contracts_state
  let rca := runGroup processContractsAssets snap.contracts_assets
    store.contracts_assets
  let rt := runGroup processTransactions snap.transactions store.transactions
  (⟨rc.1, rm.1, rrc.1, rlu.1, rcs.1, rca.1, rt.1⟩,
    firstError [rc.2, rm.2, rrc.2, rlu.2, rcs.2, rca.2, rt.2])

/-- Modelled from the spec: the single-commit Transaction Runner together
with the all-or-nothing decision of `run_on_chain_imports` (not under
`src/`): the staged transaction is committed exactly when every handler
succeeded and is discarded otherwise, so on error the persistent store is
returned unchanged. -/
def import_run (block_height da_height : Nat) (snap : SnapshotData)
    (store : StoreState) : StoreState × Option ImportError :=
  match (stageAll block_height da_height snap store).2 with
  | some e => (store, some e)
  | none => ((stageAll block_height da_height snap store).1, none)

/-- The observable calls `import_state` makes on the workers. -/
inductive WorkerCall where
  | run_on_chain_imports
  | shutdown
  | finished
deriving DecidableEq

/-- Modelled from the spec: `GenesisWorkers` (not under `src/`), reduced
to the outcome its `run_on_chain_imports` reports to `import_state`. -/
structure GenesisWorkers where
  runError : Option ImportError
deriving DecidableEq

/-- `import_state` from the source: run the on-chain imports; on error
call `shutdown()`, await `finished()`, and propagate the same error;
otherwise return success.  The second component records the calls made on
the workers, in order. -/
def import_state (w : GenesisWorkers) : Option ImportError × List WorkerCall :=
  match w.runError with
  | some e =>
    (some e, [WorkerCall.run_on_chain_imports, WorkerCall.shutdown,
      WorkerCall.finished])
  | none => (none, [WorkerCall.run_on_chain_imports])

/-! ## Helper lemmas on the table model -/

theorem lookupA_insertA {K V : Type} [DecidableEq K] (st : List (K × V))
    (k key : K) (v : V) :
    lookupA (insertA st k v) key = if k = key then some v else lookupA st key := by
  induction st with
  | nil => simp [insertA, lookupA]
  | cons hd tl ih =>
    obtain ⟨k', v'⟩ := hd
    by_cases h1 : k' = k
    · subst h1
      by_cases h2 : k' = key <;> simp [insertA, lookupA, h2]
    · by_cases h2 : k' = key
      · subst h2
        have hk : ¬ k = k' := fun h => h1 h.symm
        simp [insertA, lookupA, h1, hk]
      · simp [insertA, lookupA, h1, h2, ih]

theorem lookupA_insertA_self {K V : Type} [DecidableEq K] (st : List (K × V))
    (k : K) (v : V) : lookupA (insertA st k v) k = some v := by
  simp [lookupA_insertA]

theorem lookupA_insertA_isSome {K V : Type} [DecidableEq K] (st : List (K × V))
    (k key : K) (v : V) (h : (lookupA st key).isSome) :
    (lookupA (insertA st k v) key).isSome := by
  rw [lookupA_insertA]
  split <;> simp [h]

/-! ## Helper lemmas on the fail-fast group runner -/

theorem runGroup_append {α σ : Type} (step : α → σ → σ × Option ImportError)
    (l1 l2 : List α) (st : σ) :
    runGroup step (l1 ++ l2) st =
      match runGroup step l1 st with
      | (st', none) => runGroup step l2 st'
      | (st', some e) => (st', some e) := by
  induction l1 generalizing st with
  | nil => simp [runGroup]
  | cons a l ih =>
    simp only [List.cons_append, runGroup]
    cases h : step a st with
    | mk st' err =>
      cases err with
      | none => simp [ih]
      | some e => simp

theorem runGroup_preserve {α σ : Type} {P : σ → Prop}
    (step : α → σ → σ × Option ImportError)
    (hstep : ∀ a st, (step a st).2 = none → P st → P (step a st).1) :
    ∀ (l : List α) (st : σ),
      (runGroup step l st).2 = none → P st → P (runGroup step l st).1 := by
  intro l
  induction l with
  | nil => intro st h hp; simpa [runGroup] using hp
  | cons a l ih =>
    intro st h hp
    cases hs : step a st with
    | mk st' err =>
      cases err with
      | some e => simp [runGroup, hs] at h
      | none =>
        have h1 : (runGroup step l st').2 = none := by rwa [runGroup, hs] at h
        have hp' : P st' := by
          have := hstep a st (by simp [hs]) hp
          rwa [hs] at this
        have := ih st' h1 hp'
        rw [runGroup, hs]
        exact this

theorem runGroup_present {K V α : Type} [DecidableEq K]
    (step : α → List (K × V) → List (K × V) × Option ImportError)
    (keyOf : α → K)
    (hins : ∀ a st, (step a st).2 = none →
      (lookupA (step a st).1 (keyOf a)).isSome)
    (hmono : ∀ a st k, (step a st).2 = none →
      (lookupA st k).isSome → (lookupA (step a st).1 k).isSome) :
    ∀ (l : List α) (st : List (K × V)), (runGroup step l st).2 = none →
      ∀ a ∈ l, (lookupA (runGroup step l st).1 (keyOf a)).isSome := by
  intro l
  induction l with
  | nil => intro st h a ha; cases ha
  | cons b l ih =>
    intro st h a ha
    cases hs : step b st with
    | mk st' err =>
      cases err with
      | some e => simp [runGroup, hs] at h
      | none =>
        have hres : runGroup step (b :: l) st = runGroup step l st' := by
          rw [runGroup, hs]
        have h1 : (runGroup step l st').2 = none := by rwa [hres] at h
        rcases List.mem_cons.mp ha with rfl | hmem
        · have hb : (lookupA st' (keyOf a)).isSome := by
            have := hins a st (by simp [hs])
            rwa [hs] at this
          have := runGroup_preserve step
            (P := fun s => (lookupA s (keyOf a)).isSome = true)
            (fun a' st'' hnone hp => hmono a' st'' (keyOf a) hnone hp) l st' h1 hb
          rw [hres]
          exact this
        · have := ih st' h1 a hmem
          rw [hres]
          exact this

theorem runGroup_total {α σ : Type} (p : α → σ → σ × Option ImportError)
    (hp : ∀ a st, (p a st).2 = none) :
    ∀ (l : List α) (st : σ),
      runGroup p l st = (l.foldl (fun st a => (p a st).1) st, none) := by
  intro l
  induction l with
  | nil => intro st; simp [runGroup]
  | cons a l ih =>
    intro st
    cases h : p a st with
    | mk st' err =>
      have herr : err = none := by have := hp a st; rwa [h] at this
      subst herr
      have hfst : (p a st).1 = st' := by rw [h]
      simp [runGroup, h, ih, hfst]

theorem runGroup_flatten {α σ : Type} (step : α → σ → σ × Option ImportError) :
    ∀ (groups : List (List α)) (st : σ),
      runGroup (fun g st => runGroup step g st) groups st =
        runGroup step groups.flatten st := by
  intro groups
  induction groups with
  | nil => intro st; simp [runGroup]
  | cons g gs ih =>
    intro st
    rw [List.flatten_cons, runGroup_append]
    cases h : runGroup step g st with
    | mk st' err =>
      cases err with
      | none => simp only [runGroup, h, ih]
      | some e => simp only [runGroup, h]

theorem firstError_none :
    ∀ l : List (Option ImportError), firstError l = none → ∀ x ∈ l, x = none := by
  intro l
  induction l with
  | nil => intro _ x hx; cases hx
  | cons a l ih =>
    intro h x hx
    cases a with
    | some e => rw [firstError] at h; cases h
    | none =>
      rcases List.mem_cons.mp hx with rfl | hm
      · rfl
      · exact ih (by rwa [firstError] at h) x hm

/-! ## Success characterizations of the per-entry handlers -/

theorem init_coin_ok_eq (h : Nat) (e : TableEntry Nat CompressedCoin)
    (st : CoinsTable) (hok : (init_coin h e st).2 = none) :
    (init_coin h e st).1 =
      insertA st e.key
        ⟨e.value.owner, e.value.amount, e.value.asset_id, e.value.tx_pointer⟩ := by
  by_cases h1 : e.value.tx_pointer.block_height > h
  · simp [init_coin, h1] at hok
  · by_cases h2 : (lookupA st e.key).isSome
    · simp [init_coin, h1, h2] at hok
    · simp [init_coin, h1, h2, Coin.compress]

theorem init_contract_latest_utxo_ok_eq (h : Nat)
    (e : TableEntry Nat ContractUtxoInfo) (st : LatestUtxoTable)
    (hok : (init_contract_latest_utxo h e st).2 = none) :
    (init_contract_latest_utxo h e st).1 = insertA st e.key e.value := by
  by_cases h1 : e.value.tx_pointer.block_height > h
  · simp [init_contract_latest_utxo, h1] at hok
  · by_cases h2 : (lookupA st e.key).isSome
    · simp [init_contract_latest_utxo, h1, h2] at hok
    · simp [init_contract_latest_utxo, h1, h2]

theorem init_contract_raw_code_ok_eq (e : TableEntry Nat Nat)
    (st : RawCodeTable) (hok : (init_contract_raw_code e st).2 = none) :
    (init_contract_raw_code e st).1 = insertA st e.key e.value := by
  by_cases h2 : (lookupA st e.key).isSome
  · simp [init_contract_raw_code, h2] at hok
  · simp [init_contract_raw_code, h2]

theorem init_da_message_ok_eq (dh : Nat) (e : TableEntry Nat Message)
    (st : MessagesTable) (hok : (init_da_message dh e st).2 = none) :
    (init_da_message dh e st).1 = insertA st e.value.id e.value := by
  by_cases h1 : e.value.da_height > dh
  · simp [init_da_message, h1] at hok
  · by_cases h2 : (lookupA st e.value.id).isSome
    · simp [init_da_message, h1, h2] at hok
    · simp [init_da_message, h1, h2]

/-! ## Fold lemmas for the bulk tables -/

theorem foldl_insert_mono {K V : Type} [DecidableEq K]
    (l : List (TableEntry K V)) (st : List (K × V)) (k : K)
    (h : (lookupA st k).isSome) :
    (lookupA (l.foldl (fun acc e => insertA acc e.key e.value) st) k).isSome := by
  induction l generalizing st with
  | nil => simpa using h
  | cons e l ih =>
    simp only [List.foldl_cons]
    exact ih _ (lookupA_insertA_isSome _ _ _ _ h)

theorem foldl_insert_present {K V : Type} [DecidableEq K]
    (l : List (TableEntry K V)) (st : List (K × V)) :
    ∀ e ∈ l,
      (lookupA (l.foldl (fun acc x => insertA acc x.key x.value) st) e.key).isSome := by
  induction l generalizing st with
  | nil => intro e he; cases he
  | cons b l ih =>
    intro e he
    simp only [List.foldl_cons]
    rcases List.mem_cons.mp he with rfl | hm
    · exact foldl_insert_mono l _ _ (by simp [lookupA_insertA_self])
    · exact ih _ e hm

theorem nested_foldl_mono {K V : Type} [DecidableEq K]
    (groups : List (List (TableEntry K V))) (st : List (K × V)) (k : K)
    (h : (lookupA st k).isSome) :
    (lookupA
      (groups.foldl
        (fun acc g => g.foldl (fun a x => insertA a x.key x.value) acc) st)
      k).isSome := by
  induction groups generalizing st with
  | nil => simpa using h
  | cons g gs ih =>
    simp only [List.foldl_cons]
    exact ih _ (foldl_insert_mono g st k h)

theorem nested_foldl_present {K V : Type} [DecidableEq K]
    (groups : List (List (TableEntry K V))) (st : List (K × V)) :
    ∀ g ∈ groups, ∀ e ∈ g,
      (lookupA
        (groups.foldl
          (fun acc g => g.foldl (fun a x => insertA a x.key x.value) acc) st)
        e.key).isSome := by
  induction groups generalizing st with
  | nil => intro g hg; cases hg
  | cons g0 gs ih =>
    intro g hg e he
    simp only [List.foldl_cons]
    rcases List.mem_cons.mp hg with rfl | hm
    · exact nested_foldl_mono gs _ _ (foldl_insert_present g st e he)
    · exact ih _ g hm e he

/-- The staged view and the reported error of `stageAll`, spelled out. -/
theorem stageAll_parts (bh dh : Nat) (snap : SnapshotData) (store : StoreState) :
    stageAll bh dh snap store =
      (⟨(runGroup (processCoins bh) snap.coins store.coins).1,
        (runGroup (processMessages dh) snap.messages store.messages).1,
        (runGroup processContractsRawCode snap.contracts_raw_code
          store.contracts_raw_code).1,
        (runGroup (processContractsLatestUtxo bh) snap.contracts_latest_utxo
          store.contracts_latest_utxo).1,
        (runGroup processContractsState snap.contracts_state
          store.contracts_state).1,
        (runGroup processContractsAssets snap.contracts_assets
          store.contracts_assets).1,
        (runGroup processTransactions snap.transactions store.transactions).1⟩,
       firstError
        [(runGroup (processCoins bh) snap.coins store.coins).2,
         (runGroup (processMessages dh) snap.messages store.messages).2,
         (runGroup processContractsRawCode snap.contracts_raw_code
           store.contracts_raw_code).2,
         (runGroup (processContractsLatestUtxo bh) snap.contracts_latest_utxo
           store.contracts_latest_utxo).2,
         (runGroup processContractsState snap.contracts_state
           store.contracts_state).2,
         (runGroup processContractsAssets snap.contracts_assets
           store.contracts_assets).2,
         (runGroup processTransactions snap.transactions store.transactions).2]) :=
  rfl

/-! ## Claim theorems -/

/-- Claim C2: a Coins or ContractsLatestUtxo entry fails the height check
with a Validation error exactly when its embedded tx-pointer block height
exceeds the genesis block height, and a Messages entry exactly when its
da_height exceeds the genesis da height; equality with the bound is
accepted. -/
theorem height_boundary (h dh : Nat) (stc : CoinsTable) (stu : LatestUtxoTable)
    (stm : MessagesTable) (ec : TableEntry Nat CompressedCoin)
    (eu : TableEntry Nat ContractUtxoInfo) (em : TableEntry Nat Message) :
    ((∃ err, (init_coin h ec stc).2 = some err ∧ err.isValidation = true) ↔
      h < ec.value.tx_pointer.block_height)
    ∧ ((∃ err, (init_contract_latest_utxo h eu stu).2 = some err ∧
        err.isValidation = true) ↔ h < eu.value.tx_pointer.block_height)
    ∧ ((∃ err, (init_da_message dh em stm).2 = some err ∧
        err.isValidation = true) ↔ dh < em.value.da_height) := by
  refine ⟨⟨?_, ?_⟩, ⟨?_, ?_⟩, ⟨?_, ?_⟩⟩
  · rintro ⟨err, herr, hv⟩
    by_cases h1 : h < ec.value.tx_pointer.block_height
    · exact h1
    · exfalso
      by_cases h2 : (lookupA stc ec.key).isSome
      · simp [init_coin, h1, h2] at herr
        subst herr
        simp [ImportError.isValidation] at hv
      · simp [init_coin, h1, h2] at herr
  · intro h1
    exact ⟨.coinHeightViolation ec.value.tx_pointer.block_height h,
      by simp [init_coin, h1], by simp [ImportError.isValidation]⟩
  · rintro ⟨err, herr, hv⟩
    by_cases h1 : h < eu.value.tx_pointer.block_height
    · exact h1
    · exfalso
      by_cases h2 : (lookupA stu eu.key).isSome
      · simp [init_contract_latest_utxo, h1, h2] at herr
        subst herr
        simp [ImportError.isValidation] at hv
      · simp [init_contract_latest_utxo, h1, h2] at herr
  · intro h1
    exact ⟨.contractUtxoHeightViolation,
      by simp [init_contract_latest_utxo, h1], by simp [ImportError.isValidation]⟩
  · rintro ⟨err, herr, hv⟩
    by_cases h1 : dh < em.value.da_height
    · exact h1
    · exfalso
      by_cases h2 : (lookupA stm em.value.id).isSome
      · simp [init_da_message, h1, h2] at herr
        subst herr
        simp [ImportError.isValidation] at hv
      · simp [init_da_message, h1, h2] at herr
  · intro h1
    exact ⟨.messageDaHeightViolation,
      by simp [init_da_message, h1], by simp [ImportError.isValidation]⟩

/-- Claim C4: a Coins entry whose tx-pointer height is within the genesis
bound and whose key is not already staged is inserted under its utxo-id
key as exactly the compressed coin derived from the entry's owner,
amount, asset_id and tx_pointer, and processing succeeds. -/
theorem coins_completeness (h : Nat) (e : TableEntry Nat CompressedCoin)
    (st : CoinsTable) (hh : e.value.tx_pointer.block_height ≤ h)
    (hk : lookupA st e.key = none) :
    init_coin h e st =
      (insertA st e.key
        (Coin.mk e.key e.value.owner e.value.amount e.value.asset_id
          e.value.tx_pointer).compress, none)
    ∧ lookupA (init_coin h e st).1 e.key =
        some ⟨e.value.owner, e.value.amount, e.value.asset_id,
          e.value.tx_pointer⟩ := by
  have h1 : ¬ (e.value.tx_pointer.block_height > h) := not_lt.mpr hh
  have h2 : ¬ (lookupA st e.key).isSome = true := by simp [hk]
  constructor
  · simp [init_coin, h1, h2]
  · simp [init_coin, h1, h2, Coin.compress, lookupA_insertA_self]

theorem coins_completeness_witness :
    init_coin 100 ⟨1, ⟨2, 3, 4, ⟨50, 0⟩⟩⟩ [] =
      ([(1, ⟨2, 3, 4, ⟨50, 0⟩⟩)], none)
    ∧ lookupA (init_coin 100 ⟨1, ⟨2, 3, 4, ⟨50, 0⟩⟩⟩ []).1 1 =
        some ⟨2, 3, 4, ⟨50, 0⟩⟩ :=
  coins_completeness 100 ⟨1, ⟨2, 3, 4, ⟨50, 0⟩⟩⟩ [] (by decide) (by decide)

/-- Claim C10: `init_da_message` never reads the snapshot entry's key
field — its outcome is the same for any two keys carrying the same
message value — and a valid message is staged under the identifier
computed from the value itself. -/
theorem message_key_from_value (dh k1 k2 : Nat) (v : Message)
    (st : MessagesTable) :
    init_da_message dh ⟨k1, v⟩ st = init_da_message dh ⟨k2, v⟩ st
    ∧ (v.da_height ≤ dh → lookupA st v.id = none →
        init_da_message dh ⟨k1, v⟩ st = (insertA st v.id v, none)) := by
  constructor
  · rfl
  · intro hh hk
    have h1 : ¬ (v.da_height > dh) := not_lt.mpr hh
    have h2 : ¬ (lookupA st v.id).isSome = true := by simp [hk]
    simp [init_da_message, h1, h2]

theorem message_key_from_value_witness :
    init_da_message 5 ⟨1, ⟨0, 0, 9, 0, 3⟩⟩ [] = (insertA [] 9 ⟨0, 0, 9, 0, 3⟩, none) :=
  (message_key_from_value 5 1 2 ⟨0, 0, 9, 0, 3⟩ []).2 (by decide) (by decide)

/-- Claim C7: the two bulk tables are applied as whole-group
merge/overwrite operations that never produce an error — in particular
never a Conflict — and a duplicated key inside a group simply ends up
with the last value. -/
theorem bulk_no_conflict (g : List (TableEntry (Nat × Nat) Nat))
    (sts : ContractsStateTable) (sta : ContractsAssetsTable)
    (k : Nat × Nat) (v1 v2 : Nat) :
    (processContractsState g sts).2 = none
    ∧ (processContractsAssets g sta).2 = none
    ∧ lookupA (processContractsState [⟨k, v1⟩, ⟨k, v2⟩] sts).1 k = some v2
    ∧ lookupA (processContractsAssets [⟨k, v1⟩, ⟨k, v2⟩] sta).1 k = some v2 := by
  refine ⟨rfl, rfl, ?_, ?_⟩
  · simp [processContractsState, update_contract_states, lookupA_insertA_self]
  · simp [processContractsAssets, update_contract_balances, lookupA_insertA_self]

/-- Claim C6 counterexample: a Coins entry whose key is already staged is
rejected with the Conflict error, yet the staged value under that key has
changed — it was the first coin's record before the call and is the
second coin's record after it. -/
theorem coin_conflict_counterexample :
    init_coin 10 ⟨5, ⟨3, 20, 4, ⟨0, 0⟩⟩⟩ [(5, ⟨1, 10, 2, ⟨0, 0⟩⟩)] =
      ([(5, ⟨3, 20, 4, ⟨0, 0⟩⟩)], some ImportError.coinConflict)
    ∧ (⟨1, 10, 2, ⟨0, 0⟩⟩ : CompressedCoin) ≠ ⟨3, 20, 4, ⟨0, 0⟩⟩ := by
  decide

/-- Claim C6 (amended): a Coins entry whose key is already staged is
rejected with the Conflict error, but the insert has already been
performed — after the rejected call the staged value under that key is
the new entry's compressed coin, not the previously staged one.  (This is
harmless for the persistent store because a failed run is never
committed.) -/
theorem coin_conflict_overwrites (h : Nat) (e : TableEntry Nat CompressedCoin)
    (st : CoinsTable) (hh : e.value.tx_pointer.block_height ≤ h)
    (hk : (lookupA st e.key).isSome) :
    init_coin h e st =
      (insertA st e.key
        ⟨e.value.owner, e.value.amount, e.value.asset_id, e.value.tx_pointer⟩,
       some ImportError.coinConflict)
    ∧ lookupA (init_coin h e st).1 e.key =
        some ⟨e.value.owner, e.value.amount, e.value.asset_id,
          e.value.tx_pointer⟩ := by
  have h1 : ¬ (e.value.tx_pointer.block_height > h) := not_lt.mpr hh
  constructor
  · simp [init_coin, h1, hk, Coin.compress]
  · simp [init_coin, h1, hk, Coin.compress, lookupA_insertA_self]

theorem coin_conflict_overwrites_witness :
    init_coin 10 ⟨5, ⟨3, 20, 4, ⟨0, 0⟩⟩⟩ [(5, ⟨1, 10, 2, ⟨0, 0⟩⟩)] =
      (insertA [(5, ⟨1, 10, 2, ⟨0, 0⟩⟩)] 5 ⟨3, 20, 4, ⟨0, 0⟩⟩,
       some ImportError.coinConflict)
    ∧ lookupA (init_coin 10 ⟨5, ⟨3, 20, 4, ⟨0, 0⟩⟩⟩
        [(5, ⟨1, 10, 2, ⟨0, 0⟩⟩)]).1 5 = some ⟨3, 20, 4, ⟨0, 0⟩⟩ :=
  coin_conflict_overwrites 10 ⟨5, ⟨3, 20, 4, ⟨0, 0⟩⟩⟩ [(5, ⟨1, 10, 2, ⟨0, 0⟩⟩)]
    (by decide) (by decide)

/-- Claim C5 counterexample: two Transactions entries sharing a key are
both accepted — processing succeeds with no Conflict error and the second
value silently overwrites the first. -/
theorem transactions_conflict_counterexample :
    processTransactions [⟨7, 1⟩, ⟨7, 2⟩] [] = ([(7, 2)], none) := by
  decide

/-- Claim C5 (amended): the Transactions table is staged with overwrite
semantics — processing a group never returns an error, and a duplicate
transaction-identifier key silently replaces the previously staged value
rather than raising a Conflict. -/
theorem transactions_overwrite (g : List (TableEntry Nat Nat))
    (st : TransactionsTable) (k v1 v2 : Nat) :
    (processTransactions g st).2 = none
    ∧ processTransactions [⟨k, v1⟩, ⟨k, v2⟩] st =
        (insertA (insertA st k v1) k v2, none)
    ∧ lookupA (processTransactions [⟨k, v1⟩, ⟨k, v2⟩] st).1 k = some v2 := by
  refine ⟨?_, ?_, ?_⟩
  · have := runGroup_total
      (fun (e : TableEntry Nat Nat) st => (insertA st e.key e.value, none))
      (fun _ _ => rfl) g st
    simp [processTransactions, this]
  · simp [processTransactions, runGroup]
  · simp [processTransactions, runGroup, lookupA_insertA_self]

/-- Claim C3 counterexample: two Messages entries sharing the same
snapshot key but carrying different nonces are both accepted with no
Conflict error (the staged key is the message id, and the entry key is
never consulted); moreover a Coins entry whose key is already staged but
whose height also violates the bound returns the height Validation error,
not the Conflict error. -/
theorem duplicate_rejection_counterexample :
    (processMessages 10 [⟨7, ⟨0, 0, 1, 0, 0⟩⟩, ⟨7, ⟨0, 0, 2, 0, 0⟩⟩] []).2 = none
    ∧ (⟨7, ⟨0, 0, 1, 0, 0⟩⟩ : TableEntry Nat Message).key =
        (⟨7, ⟨0, 0, 2, 0, 0⟩⟩ : TableEntry Nat Message).key
    ∧ (init_coin 3 ⟨5, ⟨1, 1, 1, ⟨10, 0⟩⟩⟩ [(5, ⟨2, 2, 2, ⟨0, 0⟩⟩)]).2 =
        some (ImportError.coinHeightViolation 10 3) := by
  decide

/-- Claim C3 (amended): for Coins, ContractsRawCode and
ContractsLatestUtxo, an entry whose key is already staged and which
passes its height check is rejected with the corresponding Conflict
("should not exist") error; for Messages the relevant identity is the
message id derived from the value (not the entry's key field), and a
message whose id is already staged and which passes the da-height check
is likewise rejected with the Conflict error. -/
theorem duplicate_rejection_amended (h dh : Nat)
    (stc : CoinsTable) (ec : TableEntry Nat CompressedCoin)
    (strc : RawCodeTable) (er : TableEntry Nat Nat)
    (stu : LatestUtxoTable) (eu : TableEntry Nat ContractUtxoInfo)
    (stm : MessagesTable) (em : TableEntry Nat Message) :
    (ec.value.tx_pointer.block_height ≤ h → (lookupA stc ec.key).isSome →
      (init_coin h ec stc).2 = some ImportError.coinConflict)
    ∧ ((lookupA strc er.key).isSome →
      (init_contract_raw_code er strc).2 = some ImportError.contractCodeConflict)
    ∧ (eu.value.tx_pointer.block_height ≤ h → (lookupA stu eu.key).isSome →
      (init_contract_latest_utxo h eu stu).2 =
        some ImportError.contractUtxoConflict)
    ∧ (em.value.da_height ≤ dh → (lookupA stm em.value.id).isSome →
      (init_da_message dh em stm).2 = some ImportError.messageConflict) := by
  refine ⟨?_, ?_, ?_, ?_⟩
  · intro hh hk
    have h1 : ¬ (ec.value.tx_pointer.block_height > h) := not_lt.mpr hh
    simp [init_coin, h1, hk]
  · intro hk
    simp [init_contract_raw_code, hk]
  · intro hh hk
    have h1 : ¬ (eu.value.tx_pointer.block_height > h) := not_lt.mpr hh
    simp [init_contract_latest_utxo, h1, hk]
  · intro hh hk
    have h1 : ¬ (em.value.da_height > dh) := not_lt.mpr hh
    simp [init_da_message, h1, hk]

theorem duplicate_rejection_amended_witness :
    (init_coin 10 ⟨5, ⟨1, 1, 1, ⟨0, 0⟩⟩⟩ [(5, ⟨2, 2, 2, ⟨0, 0⟩⟩)]).2 =
      some ImportError.coinConflict
    ∧ (init_contract_raw_code ⟨3, 9⟩ [(3, 8)]).2 =
        some ImportError.contractCodeConflict
    ∧ (init_contract_latest_utxo 10 ⟨4, ⟨1, ⟨0, 0⟩⟩⟩ [(4, ⟨2, ⟨0, 0⟩⟩)]).2 =
        some ImportError.contractUtxoConflict
    ∧ (init_da_message 10 ⟨1, ⟨0, 0, 6, 0, 0⟩⟩ [(6, ⟨9, 9, 6, 9, 0⟩)]).2 =
        some ImportError.messageConflict := by
  have H := duplicate_rejection_amended 10 10
    [(5, ⟨2, 2, 2, ⟨0, 0⟩⟩)] ⟨5, ⟨1, 1, 1, ⟨0, 0⟩⟩⟩
    [(3, 8)] ⟨3, 9⟩
    [(4, ⟨2, ⟨0, 0⟩⟩)] ⟨4, ⟨1, ⟨0, 0⟩⟩⟩
    [(6, ⟨9, 9, 6, 9, 0⟩)] ⟨1, ⟨0, 0, 6, 0, 0⟩⟩
  exact ⟨H.1 (by decide) (by decide), H.2.1 (by decide),
    H.2.2.1 (by decide) (by decide), H.2.2.2 (by decide) (by decide)⟩

/-- Claim C9: `import_state` succeeds exactly when `run_on_chain_imports`
does; on error it calls `shutdown()`, then awaits `finished()`, and
propagates the same error unmodified. -/
theorem import_state_boundary (w : GenesisWorkers) :
    ((import_state w).1 = none ↔ w.runError = none)
    ∧ (∀ e, w.runError = some e →
        import_state w =
          (some e, [WorkerCall.run_on_chain_imports, WorkerCall.shutdown,
            WorkerCall.finished]))
    ∧ (w.runError = none →
        import_state w = (none, [WorkerCall.run_on_chain_imports])) := by
  cases hw : w.runError with
  | none => simp [import_state, hw]
  | some e => simp [import_state, hw]

theorem import_state_boundary_witness :
    import_state ⟨some ImportError.coinConflict⟩ =
      (some ImportError.coinConflict,
       [WorkerCall.run_on_chain_imports, WorkerCall.shutdown,
        WorkerCall.finished]) :=
  (import_state_boundary ⟨some ImportError.coinConflict⟩).2.1
    ImportError.coinConflict rfl

/-- Claim C8: within a group, `process` returns the error of the first
failing entry — entries after it contribute nothing to the result — and
the state it returns is the one built by staging all entries before the
failing one (plus whatever the failing entry itself wrote before
erroring); shown for the Coins and Messages handlers. -/
theorem fail_fast (h dh : Nat) :
    (∀ (pre : List (TableEntry Nat CompressedCoin))
        (bad : TableEntry Nat CompressedCoin)
        (post : List (TableEntry Nat CompressedCoin))
        (st0 st1 st2 : CoinsTable) (e : ImportError),
      processCoins h pre st0 = (st1, none) →
      init_coin h bad st1 = (st2, some e) →
      processCoins h (pre ++ bad :: post) st0 = (st2, some e))
    ∧ (∀ (pre : List (TableEntry Nat Message)) (bad : TableEntry Nat Message)
        (post : List (TableEntry Nat Message))
        (st0 st1 st2 : MessagesTable) (e : ImportError),
      processMessages dh pre st0 = (st1, none) →
      init_da_message dh bad st1 = (st2, some e) →
      processMessages dh (pre ++ bad :: post) st0 = (st2, some e)) := by
  constructor
  · intro pre bad post st0 st1 st2 e h1 h2
    show runGroup (init_coin h) (pre ++ bad :: post) st0 = (st2, some e)
    rw [runGroup_append]
    rw [show runGroup (init_coin h) pre st0 = (st1, none) from h1]
    simp [runGroup, h2]
  · intro pre bad post st0 st1 st2 e h1 h2
    show runGroup (init_da_message dh) (pre ++ bad :: post) st0 = (st2, some e)
    rw [runGroup_append]
    rw [show runGroup (init_da_message dh) pre st0 = (st1, none) from h1]
    simp [runGroup, h2]

theorem fail_fast_witness :
    processCoins 10
      ([⟨1, ⟨0, 0, 0, ⟨0, 0⟩⟩⟩] ++ ⟨1, ⟨1, 0, 0, ⟨0, 0⟩⟩⟩ ::
        [⟨2, ⟨0, 0, 0, ⟨0, 0⟩⟩⟩]) [] =
      ([(1, ⟨1, 0, 0, ⟨0, 0⟩⟩)], some ImportError.coinConflict) :=
  (fail_fast 10 0).1 [⟨1, ⟨0, 0, 0, ⟨0, 0⟩⟩⟩] ⟨1, ⟨1, 0, 0, ⟨0, 0⟩⟩⟩
    [⟨2, ⟨0, 0, 0, ⟨0, 0⟩⟩⟩] [] [(1, ⟨0, 0, 0, ⟨0, 0⟩⟩)]
    [(1, ⟨1, 0, 0, ⟨0, 0⟩⟩)] ImportError.coinConflict (by decide) (by decide)

/-- Claim C1: the import run is atomic — if any handler fails, the
returned error leaves the persistent store exactly as it was (zero
entries from this run, across all table kinds); if the run succeeds, the
committed store contains an entry for every snapshot Entry of every table
kind, under that entry's staged key. -/
theorem genesis_import_atomicity (bh dh : Nat) (snap : SnapshotData)
    (store : StoreState) :
    ((import_run bh dh snap store).2.isSome →
      (import_run bh dh snap store).1 = store)
    ∧ ((import_run bh dh snap store).2 = none →
      (∀ g ∈ snap.coins, ∀ e ∈ g,
        (lookupA (import_run bh dh snap store).1.coins e.key).isSome)
      ∧ (∀ g ∈ snap.messages, ∀ e ∈ g,
        (lookupA (import_run bh dh snap store).1.messages e.value.id).isSome)
      ∧ (∀ g ∈ snap.contracts_raw_code, ∀ e ∈ g,
        (lookupA (import_run bh dh snap store).1.contracts_raw_code
          e.key).isSome)
      ∧ (∀ g ∈ snap.contracts_latest_utxo, ∀ e ∈ g,
        (lookupA (import_run bh dh snap store).1.contracts_latest_utxo
          e.key).isSome)
      ∧ (∀ g ∈ snap.contracts_state, ∀ e ∈ g,
        (lookupA (import_run bh dh snap store).1.contracts_state
          e.key).isSome)
      ∧ (∀ g ∈ snap.contracts_assets, ∀ e ∈ g,
        (lookupA (import_run bh dh snap store).1.contracts_assets
          e.key).isSome)
      ∧ (∀ g ∈ snap.transactions, ∀ e ∈ g,
        (lookupA (import_run bh dh snap store).1.transactions
          e.key).isSome)) := by
  constructor
  · intro h
    cases hs : (stageAll bh dh snap store).2 with
    | some e => simp [import_run, hs]
    | none => simp [import_run, hs] at h
  · intro h
    cases hs : (stageAll bh dh snap store).2 with
    | some e => simp [import_run, hs] at h
    | none =>
      have him1 : (import_run bh dh snap store).1 =
          (stageAll bh dh snap store).1 := by
        simp [import_run, hs]
      have hfe : firstError
          [(runGroup (processCoins bh) snap.coins store.coins).2,
           (runGroup (processMessages dh) snap.messages store.messages).2,
           (runGroup processContractsRawCode snap.contracts_raw_code
             store.contracts_raw_code).2,
           (runGroup (processContractsLatestUtxo bh) snap.contracts_latest_utxo
             store.contracts_latest_utxo).2,
           (runGroup processContractsState snap.contracts_state
             store.contracts_state).2,
           (runGroup processContractsAssets snap.contracts_assets
             store.contracts_assets).2,
           (runGroup processTransactions snap.transactions
             store.transactions).2] = none := hs
      have hall := firstError_none _ hfe
      have hc2 : (runGroup (processCoins bh) snap.coins store.coins).2 = none :=
        hall _ (by simp)
      have hm2 : (runGroup (processMessages dh) snap.messages
          store.messages).2 = none := hall _ (by simp)
      have hrc2 : (runGroup processContractsRawCode snap.contracts_raw_code
          store.contracts_raw_code).2 = none := hall _ (by simp)
      have hlu2 : (runGroup (processContractsLatestUtxo bh)
          snap.contracts_latest_utxo store.contracts_latest_utxo).2 = none :=
        hall _ (by simp)
      have ht2 : (runGroup processTransactions snap.transactions
          store.transactions).2 = none := hall _ (by simp)
      -- Coins
      have hcflat : runGroup (processCoins bh) snap.coins store.coins =
          runGroup (init_coin bh) snap.coins.flatten store.coins :=
        runGroup_flatten (init_coin bh) snap.coins store.coins
      have hc2' : (runGroup (init_coin bh) snap.coins.flatten
          store.coins).2 = none := by rw [← hcflat]; exact hc2
      have hcpres := runGroup_present (init_coin bh)
        (fun (e : TableEntry Nat CompressedCoin) => e.key)
        (fun a st hok => by
          rw [init_coin_ok_eq bh a st hok, lookupA_insertA_self]; rfl)
        (fun a st k hok hk => by
          rw [init_coin_ok_eq bh a st hok]
          exact lookupA_insertA_isSome _ _ _ _ hk)
        snap.coins.flatten store.coins hc2'
      have Pc : ∀ g ∈ snap.coins, ∀ e ∈ g,
          (lookupA (import_run bh dh snap store).1.coins e.key).isSome := by
        intro g hg e he
        rw [him1]
        have := hcpres e (List.mem_flatten.mpr ⟨g, hg, he⟩)
        rw [← hcflat] at this
        exact this
      -- Messages
      have hmflat : runGroup (processMessages dh) snap.messages
          store.messages =
          runGroup (init_da_message dh) snap.messages.flatten store.messages :=
        runGroup_flatten (init_da_message dh) snap.messages store.messages
      have hm2' : (runGroup (init_da_message dh) snap.messages.flatten
          store.messages).2 = none := by rw [← hmflat]; exact hm2
      have hmpres := runGroup_present (init_da_message dh)
        (fun (e : TableEntry Nat Message) => e.value.id)
        (fun a st hok => by
          rw [init_da_message_ok_eq dh a st hok, lookupA_insertA_self]; rfl)
        (fun a st k hok hk => by
          rw [init_da_message_ok_eq dh a st hok]
          exact lookupA_insertA_isSome _ _ _ _ hk)
        snap.messages.flatten store.messages hm2'
      have Pm : ∀ g ∈ snap.messages, ∀ e ∈ g,
          (lookupA (import_run bh dh snap store).1.messages
            e.value.id).isSome := by
        intro g hg e he
        rw [him1]
        have := hmpres e (List.mem_flatten.mpr ⟨g, hg, he⟩)
        rw [← hmflat] at this
        exact this
      -- ContractsRawCode
      have hrcflat : runGroup processContractsRawCode snap.contracts_raw_code
          store.contracts_raw_code =
          runGroup init_contract_raw_code snap.contracts_raw_code.flatten
            store.contracts_raw_code :=
        runGroup_flatten init_contract_raw_code snap.contracts_raw_code
          store.contracts_raw_code
      have hrc2' : (runGroup init_contract_raw_code
          snap.contracts_raw_code.flatten store.contracts_raw_code).2 = none := by
        rw [← hrcflat]; exact hrc2
      have hrcpres := runGroup_present init_contract_raw_code
        (fun (e : TableEntry Nat Nat) => e.key)
        (fun a st hok => by
          rw [init_contract_raw_code_ok_eq a st hok, lookupA_insertA_self]; rfl)
        (fun a st k hok hk => by
          rw [init_contract_raw_code_ok_eq a st hok]
          exact lookupA_insertA_isSome _ _ _ _ hk)
        snap.contracts_raw_code.flatten store.contracts_raw_code hrc2'
      have Prc : ∀ g ∈ snap.contracts_raw_code, ∀ e ∈ g,
          (lookupA (import_run bh dh snap store).1.contracts_raw_code
            e.key).isSome := by
        intro g hg e he
        rw [him1]
        have := hrcpres e (List.mem_flatten.mpr ⟨g, hg, he⟩)
        rw [← hrcflat] at this
        exact this
      -- ContractsLatestUtxo
      have hluflat : runGroup (processContractsLatestUtxo bh)
          snap.contracts_latest_utxo store.contracts_latest_utxo =
          runGroup (init_contract_latest_utxo bh)
            snap.contracts_latest_utxo.flatten store.contracts_latest_utxo :=
        runGroup_flatten (init_contract_latest_utxo bh)
          snap.contracts_latest_utxo store.contracts_latest_utxo
      have hlu2' : (runGroup (init_contract_latest_utxo bh)
          snap.contracts_latest_utxo.flatten
          store.contracts_latest_utxo).2 = none := by
        rw [← hluflat]; exact hlu2
      have hlupres := runGroup_present (init_contract_latest_utxo bh)
        (fun (e : TableEntry Nat ContractUtxoInfo) => e.key)
        (fun a st hok => by
          rw [init_contract_latest_utxo_ok_eq bh a st hok,
            lookupA_insertA_self]; rfl)
        (fun a st k hok hk => by
          rw [init_contract_latest_utxo_ok_eq bh a st hok]
          exact lookupA_insertA_isSome _ _ _ _ hk)
        snap.contracts_latest_utxo.flatten store.contracts_latest_utxo hlu2'
      have Plu : ∀ g ∈ snap.contracts_latest_utxo, ∀ e ∈ g,
          (lookupA (import_run bh dh snap store).1.contracts_latest_utxo
            e.key).isSome := by
        intro g hg e he
        rw [him1]
        have := hlupres e (List.mem_flatten.mpr ⟨g, hg, he⟩)
        rw [← hluflat] at this
        exact this
      -- ContractsState (bulk)
      have hsTotal := runGroup_total processContractsState (fun _ _ => rfl)
        snap.contracts_state store.contracts_state
      have Ps : ∀ g ∈ snap.contracts_state, ∀ e ∈ g,
          (lookupA (import_run bh dh snap store).1.contracts_state
            e.key).isSome := by
        intro g hg e he
        rw [him1]
        show (lookupA (runGroup processContractsState snap.contracts_state
          store.contracts_state).1 e.key).isSome = true
        rw [hsTotal]
        exact nested_foldl_present snap.contracts_state store.contracts_state
          g hg e he
      -- ContractsAssets (bulk)
      have haTotal := runGroup_total processContractsAssets (fun _ _ => rfl)
        snap.contracts_assets store.contracts_assets
      have Pa : ∀ g ∈ snap.contracts_assets, ∀ e ∈ g,
          (lookupA (import_run bh dh snap store).1.contracts_assets
            e.key).isSome := by
        intro g hg e he
        rw [him1]
        show (lookupA (runGroup processContractsAssets snap.contracts_assets
          store.contracts_assets).1 e.key).isSome = true
        rw [haTotal]
        exact nested_foldl_present snap.contracts_assets store.contracts_assets
          g hg e he
      -- Transactions
      have htflat : runGroup processTransactions snap.transactions
          store.transactions =
          runGroup (fun (e : TableEntry Nat Nat) st =>
            (insertA st e.key e.value, none))
            snap.transactions.flatten store.transactions :=
        runGroup_flatten _ snap.transactions store.transactions
      have ht2' : (runGroup (fun (e : TableEntry Nat Nat) st =>
          (insertA st e.key e.value, none))
          snap.transactions.flatten store.transactions).2 = none := by
        rw [← htflat]; exact ht2
      have htpres := runGroup_present
        (fun (e : TableEntry Nat Nat) st => (insertA st e.key e.value, none))
        (fun (e : TableEntry Nat Nat) => e.key)
        (fun a st _ => by
          show (lookupA (insertA st a.key a.value) a.key).isSome = true
          rw [lookupA_insertA_self]; rfl)
        (fun a st k _ hk => lookupA_insertA_isSome _ _ _ _ hk)
        snap.transactions.flatten store.transactions ht2'
      have Pt : ∀ g ∈ snap.transactions, ∀ e ∈ g,
          (lookupA (import_run bh dh snap store).1.transactions
            e.key).isSome := by
        intro g hg e he
        rw [him1]
        have := htpres e (List.mem_flatten.mpr ⟨g, hg, he⟩)
        rw [← htflat] at this
        exact this
      exact ⟨Pc, Pm, Prc, Plu, Ps, Pa, Pt⟩

theorem genesis_import_atomicity_witness :
    (import_run 3 3 ⟨[[⟨1, ⟨0, 0, 0, ⟨5, 0⟩⟩⟩]], [], [], [], [], [], []⟩
      ⟨[], [], [], [], [], [], []⟩).1 = ⟨[], [], [], [], [], [], []⟩
    ∧ (∀ g ∈ [[(⟨1, ⟨0, 0, 0, ⟨2, 0⟩⟩⟩ : TableEntry Nat CompressedCoin)]],
        ∀ e ∈ g,
        (lookupA (import_run 3 3
          ⟨[[⟨1, ⟨0, 0, 0, ⟨2, 0⟩⟩⟩]], [], [], [], [], [], []⟩
          ⟨[], [], [], [], [], [], []⟩).1.coins e.key).isSome) :=
  ⟨(genesis_import_atomicity 3 3
      ⟨[[⟨1, ⟨0, 0, 0, ⟨5, 0⟩⟩⟩]], [], [], [], [], [], []⟩
      ⟨[], [], [], [], [], [], []⟩).1 (by decide),
   ((genesis_import_atomicity 3 3
      ⟨[[⟨1, ⟨0, 0, 0, ⟨2, 0⟩⟩⟩]], [], [], [], [], [], []⟩
      ⟨[], [], [], [], [], [], []⟩).2 (by decide)).1⟩
